import Mathlib

/-!
Shallow embedding of `push_notifications.go` (package `pushnotifications`),
the Pusher Push Notifications server SDK client.

Modelling conventions:
* Go strings are byte lists (`GoStr := List Nat`): Go's `len` is the byte
  count and `for i, r := range` decodes UTF-8, so a byte-level model is the
  faithful one.  All string literals used by the library are ASCII, so the
  helper `gs` maps a Lean literal to its bytes via code points.
* Go errors are their message strings (`errors.New msg` is `msg`;
  `errors.Wrap err msg` produces the message `msg ++ ": " ++ err`).
* The caller-supplied payload `map[string]interface{}` is an association
  list with Go map semantics (`mapGet` / `mapSet`); Go maps are mutated in
  place, so each publish operation returns the caller's map as it stands
  after the call.
* `encoding/json` marshalling is modelled at the document level: a payload
  serializes to a JSON AST (`Json`) rather than to bytes.  Go sorts map
  keys when encoding; field order is irrelevant to every property below,
  which only ever looks fields up by name.
* The HTTP transport is an external collaborator: a function from the
  request URL and serialized body to a network failure or a
  status/JSON-body response.  Each publish operation also returns the list
  of transport invocations it made, so "no network call is made" is the
  statement that this list is empty.
-/

set_option maxRecDepth 40000

namespace PushGo

/-- A Go string, as its UTF-8 bytes. -/
abbrev GoStr := List Nat

/-- Bytes of an ASCII Lean string literal (code points = UTF-8 bytes for ASCII). -/
def gs (s : String) : GoStr := s.data.map Char.toNat

/-- `startsWithB hay needle`: `needle` is a prefix of `hay` (byte-wise). -/
def startsWithB : GoStr → GoStr → Bool
  | _, [] => true
  | [], _ :: _ => false
  | a :: as, b :: bs => a == b && startsWithB as bs

/-- `containsSub hay needle`: `needle` occurs as a contiguous substring of `hay`. -/
def containsSub : GoStr → GoStr → Bool
  | [], needle => startsWithB [] needle
  | a :: t, needle => startsWithB (a :: t) needle || containsSub t needle

/-- The interest character class of `interestValidationRegex`,
`^[a-zA-Z0-9_\-=@,.;]+$`, at the byte level (all class members are ASCII). -/
def allowedByte (b : Nat) : Bool :=
  (65 ≤ b && b ≤ 90) || (97 ≤ b && b ≤ 122) || (48 ≤ b && b ≤ 57) ||
  (b == 95) || (b == 45) || (b == 61) || (b == 64) || (b == 44) || (b == 46) || (b == 59)

/-- `interestValidationRegex.MatchString`: anchored `^[...]+$`, i.e. the
string is non-empty and every byte lies in the class.  (A non-ASCII or
invalid UTF-8 byte can never be in the ASCII class, so the byte-level test
agrees with Go's rune-level matching.) -/
def interestRegexMatches (s : GoStr) : Bool :=
  !s.isEmpty && s.all allowedByte

/-- `unicode/utf8.ValidString` on the byte representation (RFC 3629:
rejects lone continuations, overlong forms, surrogates, values above
U+10FFFF). -/
def utf8Valid : GoStr → Bool
  | [] => true
  | b :: rest =>
    if b < 128 then utf8Valid rest
    else if b < 194 then false
    else if b < 224 then
      match rest with
      | c :: rest2 => if 128 ≤ c ∧ c < 192 then utf8Valid rest2 else false
      | [] => false
    else if b < 240 then
      match rest with
      | c1 :: c2 :: rest2 =>
        if (if b = 224 then 160 else 128) ≤ c1 ∧ c1 < (if b = 237 then 160 else 192) ∧
            128 ≤ c2 ∧ c2 < 192 then utf8Valid rest2 else false
      | _ => false
    else if b < 245 then
      match rest with
      | c1 :: c2 :: c3 :: rest2 =>
        if (if b = 240 then 144 else 128) ≤ c1 ∧ c1 < (if b = 244 then 144 else 192) ∧
            128 ≤ c2 ∧ c2 < 192 ∧ 128 ≤ c3 ∧ c3 < 192 then utf8Valid rest2 else false
      | _ => false
    else false

/-- `fmt.Sprintf` restricted to what these call sites can reach: string
arguments with `%s` verbs (`%%` escapes, a missing argument prints
`%!s(MISSING)`, a trailing `%` prints `%!(NOVERB)`, and any other verb
applied to a string argument prints `%!v(string=arg)` in Go's mismatch
notation).  Width/precision flags never occur in the library's format
strings and are not modelled. -/
def sprintf : GoStr → List GoStr → GoStr
  | [], _ => []
  | b :: rest, args =>
    if b = 37 then
      match rest with
      | [] => gs "%!(NOVERB)"
      | v :: rest2 =>
        if v = 37 then 37 :: sprintf rest2 args
        else if v = 115 then
          match args with
          | a :: args2 => a ++ sprintf rest2 args2
          | [] => gs "%!s(MISSING)" ++ sprintf rest2 []
        else
          match args with
          | a :: args2 => gs "%!" ++ (v :: gs "(string=" ++ a ++ gs ")") ++ sprintf rest2 args2
          | [] => gs "%!" ++ (v :: gs "(MISSING)") ++ sprintf rest2 []
    else b :: sprintf rest args

/-- `maxUserIdLength` constant. -/
def maxUserIdLength : Nat := 164

/-- `maxNumUserIds` constant. -/
def maxNumUserIds : Nat := 1000

/-- `defaultBaseEndpointFormat` constant. -/
def defaultBaseEndpointFormat : GoStr := gs "https://%s.pushnotifications.pusher.com"

/-- The `pushNotifications` struct: instance credentials plus the base
endpoint derived at construction.  (The `http.Client` handle carries no
state relevant to the model; the transport is passed explicitly.) -/
structure PushNotifications where
  InstanceId : GoStr
  SecretKey : GoStr
  baseEndpoint : GoStr

/-- `New(instanceId, secretKey)`. -/
def New (instanceId secretKey : GoStr) : Except GoStr PushNotifications :=
  if instanceId = [] then .error (gs "Instance Id cannot be an empty string")
  else if secretKey = [] then .error (gs "Secret Key cannot be an empty string")
  else .ok ⟨instanceId, secretKey, sprintf defaultBaseEndpointFormat [instanceId]⟩

/-- A Go `interface{}` value as it can occur in a caller's payload map.
`chanVal` stands for any value `encoding/json` cannot serialize (a channel,
function, complex number, ...): `json.Marshal` fails on it. -/
inductive GoVal where
  | str (s : GoStr)
  | num (n : Int)
  | boolV (b : Bool)
  | null
  | strList (l : List GoStr)
  | arr (l : List GoVal)
  | obj (fields : List (GoStr × GoVal))
  | chanVal

/-- The caller's `map[string]interface{}` payload.  Association list with
Go map semantics: at most one binding per key is ever observable through
`mapGet`/`mapSet`. -/
abbrev GoMap := List (GoStr × GoVal)

/-- Go map read: the binding for `key` (first match). -/
def mapGet : GoMap → GoStr → Option GoVal
  | [], _ => none
  | (k, v) :: rest, key => if k = key then some v else mapGet rest key

/-- Go map write `m[key] = v`: replaces the existing binding or adds one. -/
def mapSet : GoMap → GoStr → GoVal → GoMap
  | [], key, v => [(key, v)]
  | (k, w) :: rest, key, v =>
    if k = key then (k, v) :: rest else (k, w) :: mapSet rest key v

/-- A JSON document (the serialized form of a request or response body). -/
inductive Json where
  | str (s : GoStr)
  | num (n : Int)
  | boolV (b : Bool)
  | null
  | arr (l : List Json)
  | obj (fields : List (GoStr × Json))

/-- First field with the given name in a JSON object field list. -/
def jsonField : List (GoStr × Json) → GoStr → Option Json
  | [], _ => none
  | (k, v) :: rest, key => if k = key then some v else jsonField rest key

/-- Field lookup in a serialized object. -/
def jsonObjGet : Json → GoStr → Option Json
  | .obj fields, key => jsonField fields key
  | _, _ => none

/-- Last field with the given name: `encoding/json` decodes object fields
in order, so with duplicate keys the last occurrence wins. -/
def jsonFieldLast : List (GoStr × Json) → GoStr → Option Json
  | [], _ => none
  | (k, v) :: rest, key =>
    match jsonFieldLast rest key with
    | some w => some w
    | none => if k = key then some v else none

mutual

/-- `json.Marshal` of a payload value, to the document level (`none` =
marshalling error, e.g. an unsupported type). -/
def marshalVal : GoVal → Option Json
  | .str s => some (.str s)
  | .num n => some (.num n)
  | .boolV b => some (.boolV b)
  | .null => some .null
  | .strList l => some (.arr (l.map Json.str))
  | .arr l => (marshalList l).map Json.arr
  | .obj fields => (marshalFields fields).map Json.obj
  | .chanVal => none

/-- Marshal every element of a Go slice. -/
def marshalList : List GoVal → Option (List Json)
  | [] => some []
  | v :: rest =>
    match marshalVal v, marshalList rest with
    | some j, some js => some (j :: js)
    | _, _ => none

/-- Marshal every field of a Go map/object. -/
def marshalFields : List (GoStr × GoVal) → Option (List (GoStr × Json))
  | [] => some []
  | (k, v) :: rest =>
    match marshalVal v, marshalFields rest with
    | some j, some js => some ((k, j) :: js)
    | _, _ => none

end

/-- `json.Marshal(request)` for the payload map. -/
def marshalMap (m : GoMap) : Option Json := (marshalFields m).map Json.obj

/-- The `publishResponse` struct (`publishId` JSON field). -/
structure PublishResponse where
  PublishId : GoStr

/-- The `publishErrorResponse` struct (`error` and `description` fields). -/
structure PublishErrorResponse where
  Error : GoStr
  Description : GoStr

/-- Decode a string-typed struct field from a JSON object, as
`encoding/json` does: absent or `null` leaves the zero value `""`,
a non-string value is a decode error (`none`). -/
def decodeStrField (fields : List (GoStr × Json)) (key : GoStr) : Option GoStr :=
  match jsonFieldLast fields key with
  | none => some []
  | some (.str s) => some s
  | some .null => some []
  | some _ => none

/-- `json.Unmarshal(responseBytes, &publishResponse{})`.  The response body
is `none` when the bytes are not valid JSON; a top-level `null` is a no-op
success; any other non-object top level is a decode error. -/
def unmarshalPublishResponse : Option Json → Option PublishResponse
  | none => none
  | some (.obj fields) => (decodeStrField fields (gs "publishId")).map (⟨·⟩)
  | some .null => some ⟨[]⟩
  | some _ => none

/-- `json.Unmarshal(responseBytes, &publishErrorResponse{})`. -/
def unmarshalErrorResponse : Option Json → Option PublishErrorResponse
  | none => none
  | some (.obj fields) =>
    match decodeStrField fields (gs "error"), decodeStrField fields (gs "description") with
    | some e, some d => some ⟨e, d⟩
    | _, _ => none
  | some .null => some ⟨[], []⟩
  | some _ => none

/-- What one `httpClient.Do` + body read can produce: a transport-level
failure of the request itself (`doErr`), a failure reading the response
body (`readErr`), or a status code with the response body (`none` body =
bytes that are not valid JSON). -/
inductive TransportResult where
  | doErr (e : GoStr)
  | readErr (e : GoStr)
  | resp (status : Nat) (body : Option Json)

/-- The HTTP transport collaborator: URL and serialized request body to
response.  (The three headers the code attaches carry no logic and are not
modelled.) -/
abbrev Transport := GoStr → Json → TransportResult

/-- `errors.Wrap(err, msg)`: message of the wrapped error. -/
def wrap (msg inner : GoStr) : GoStr := msg ++ gs ": " ++ inner

/-- Interpretation of one transport outcome, as the tail of `publishToAPI`
(the `switch httpResp.StatusCode` and the two network-error wraps). -/
def interpretResponse (r : TransportResult) : Except GoStr GoStr :=
  match r with
  | .doErr e => .error (wrap (gs "Failed to publish notifications due to a network error") e)
  | .readErr e =>
    .error (wrap (gs "Failed to read publish notification response due to a network error") e)
  | .resp status respBody =>
    if status = 200 then
      match unmarshalPublishResponse respBody with
      | none =>
        .error (wrap (gs "Failed to read publish notification response due to invalid JSON")
          (gs "json unmarshal error"))
      | some r => .ok r.PublishId
    else
      match unmarshalErrorResponse respBody with
      | none =>
        .error (wrap (gs "Failed to read publish notification response due to invalid JSON")
          (gs "json unmarshal error"))
      | some er =>
        .error (wrap (gs "Failed to publish notification") (wrap er.Error er.Description))

/-- `publishToAPI(url, bodyRequestBytes)`: performs exactly one transport
call and interprets the response.  Returns the outcome together with the
list of transport invocations made.  The `http.NewRequest` error path is
unreachable for the URLs this library builds from non-empty instance ids
and is not modelled. -/
def publishToAPI (url : GoStr) (body : Json) (t : Transport) :
    Except GoStr GoStr × List (GoStr × Json) :=
  (interpretResponse (t url body), [(url, body)])

/-- The injected key `"interests"`. -/
def keyInterests : GoStr := gs "interests"

/-- The injected key `"users"`. -/
def keyUsers : GoStr := gs "users"

/-- Message of the over-length interest error
(`"Interest length is %d which is over 164 characters"`). -/
def interestLenMsg (i : GoStr) : GoStr :=
  gs "Interest length is " ++ (gs (toString i.length) ++ gs " which is over 164 characters")

/-- Message of the forbidden-character interest error
(`"Interest `%s` contains an forbidden character: ..."`). -/
def interestCharMsg (i : GoStr) : GoStr :=
  gs "Interest `" ++ (i ++ gs "` contains an forbidden character: Allowed characters are: ASCII upper/lower-case letters, numbers or one of _-=@,.:")

/-- The per-interest checks of the `for _, interest := range interests`
loop in `PublishToInterests`, in source order. -/
def checkInterest (interest : GoStr) : Option GoStr :=
  if interest.length = 0 then some (gs "An empty interest name is not valid")
  else if interest.length > 164 then some (interestLenMsg interest)
  else if interestRegexMatches interest = false then some (interestCharMsg interest)
  else none

/-- First failing interest of the loop, scanning in list order. -/
def checkInterestList : List GoStr → Option GoStr
  | [] => none
  | i :: rest =>
    match checkInterest i with
    | some e => some e
    | none => checkInterestList rest

/-- Message of the too-many-interests error. -/
def tooManyInterestsMsg (n : Nat) : GoStr :=
  gs "Too many interests supplied (" ++ (gs (toString n) ++ gs "): API only supports up to 10")

/-- The interest validation performed at the top of `PublishToInterests`
(lines 111-139), before any state change or network activity. -/
def validateInterests (interests : List GoStr) : Option GoStr :=
  if interests.length = 0 then some (gs "No interests were supplied")
  else if interests.length > 10 then some (tooManyInterestsMsg interests.length)
  else checkInterestList interests

/-- Message of the too-many-user-ids error. -/
def tooManyUserIdsMsg (n : Nat) : GoStr :=
  gs "Too many user ids supplied. API supports up to " ++
    (gs (toString maxNumUserIds) ++ (gs ", got " ++ gs (toString n)))

/-- Fixed middle part of the over-length user id message in
`PublishToUsers` (which prints `maxUserIdLength`, i.e. 164). -/
def userLenMid : GoStr :=
  gs "') length too long (expected fewer than " ++
    (gs (toString maxUserIdLength) ++ gs " characters, got ")

/-- Message of the over-length user id error in `PublishToUsers`. -/
def userLenMsg (u : GoStr) : GoStr :=
  gs "User Id ('" ++ (u ++ (userLenMid ++ (gs (toString u.length) ++ gs ")")))

/-- Message of the invalid-UTF-8 user id error, naming the index. -/
def userUtf8Msg (i : Nat) : GoStr :=
  gs "User Id at index " ++ (gs (toString i) ++ gs " is not valid utf8")

/-- Message of the empty user id error. -/
def userEmptyMsg : GoStr := gs "Empty user ids are not valid"

/-- The `for i, userId := range users` loop of `PublishToUsers`, carrying
the running index: empty check, byte-length check, UTF-8 check, in source
order, short-circuiting. -/
def checkUserIds : Nat → List GoStr → Option GoStr
  | _, [] => none
  | i, u :: rest =>
    if u = [] then some userEmptyMsg
    else if u.length > maxUserIdLength then some (userLenMsg u)
    else if utf8Valid u = false then some (userUtf8Msg i)
    else checkUserIds (i + 1) rest

/-- The user-id validation performed at the top of `PublishToUsers`
(lines 152-173). -/
def validateUserIds (users : List GoStr) : Option GoStr :=
  if users.length = 0 then some (gs "Must supply at least one user id")
  else if users.length > maxNumUserIds then some (tooManyUserIdsMsg users.length)
  else checkUserIds 0 users

/-- Everything a publish call gives back to its caller: the
publishId-or-error result, the caller's payload map as the call left it
(Go maps are passed by reference and mutated in place), and the transport
invocations performed. -/
structure PublishCall where
  result : Except GoStr GoStr
  request : GoMap
  calls : List (GoStr × Json)

/-- URL built by `PublishToInterests` (line 147): note that
`pn.baseEndpoint` — which embeds the caller-chosen instance id — is
concatenated into the `Sprintf` format string. -/
def interestsPublishUrl (pn : PushNotifications) : GoStr :=
  sprintf (pn.baseEndpoint ++ gs "/publish_api/v1/instances/%s/publishes") [pn.InstanceId]

/-- URL built by `PublishToUsers` (line 181): here `pn.baseEndpoint` is
passed as a `Sprintf` argument. -/
def usersPublishUrl (pn : PushNotifications) : GoStr :=
  sprintf (gs "%s/publish_api/v1/instances/%s/publishes/users") [pn.baseEndpoint, pn.InstanceId]

/-- `PublishToInterests(interests, request)`. -/
def PublishToInterests (pn : PushNotifications) (interests : List GoStr) (request : GoMap)
    (t : Transport) : PublishCall :=
  match validateInterests interests with
  | some e => ⟨.error e, request, []⟩
  | none =>
    let request2 := mapSet request keyInterests (.strList interests)
    match marshalMap request2 with
    | none =>
      ⟨.error (wrap (gs "Failed to marshal the publish request JSON body")
        (gs "json: unsupported type")), request2, []⟩
    | some body =>
      let r := publishToAPI (interestsPublishUrl pn) body t
      ⟨r.1, request2, r.2⟩

/-- `Publish`: an alias for `PublishToInterests`. -/
def Publish (pn : PushNotifications) (interests : List GoStr) (request : GoMap)
    (t : Transport) : PublishCall :=
  PublishToInterests pn interests request t

/-- `PublishToUsers(users, request)`. -/
def PublishToUsers (pn : PushNotifications) (users : List GoStr) (request : GoMap)
    (t : Transport) : PublishCall :=
  match validateUserIds users with
  | some e => ⟨.error e, request, []⟩
  | none =>
    let request2 := mapSet request keyUsers (.strList users)
    match marshalMap request2 with
    | none =>
      ⟨.error (wrap (gs "Failed to marshal the publish request JSON body")
        (gs "json: unsupported type")), request2, []⟩
    | some body =>
      let r := publishToAPI (usersPublishUrl pn) body t
      ⟨r.1, request2, r.2⟩

/-- `jwt.SigningMethodHS256` (the only method the code uses). -/
inductive SigningMethod where
  | HS256

/-- The `jwt.MapClaims` set the code builds: `sub`, `exp`, `iss`. -/
structure MapClaims where
  sub : GoStr
  exp : Int
  iss : GoStr

/-- The signed JWT, modelled at the `jwt-go` collaborator boundary: the
compact token is a function of the signing method, the claim set, and the
key, which is exactly what this record keeps.  (`SignedString` with an
HMAC method and a `[]byte` key cannot fail, so the wrapped signing-error
path of the code is unreachable.) -/
structure SignedToken where
  method : SigningMethod
  claims : MapClaims
  key : GoStr

/-- Fixed middle part of the over-length user id message in
`AuthenticateUser` (which prints `maxUserIdLength+1`, i.e. 165). -/
def authLenMid : GoStr :=
  gs "') length too long (expected fewer than " ++
    (gs (toString (maxUserIdLength + 1)) ++ gs " characters, got ")

/-- Message of the over-length user id error in `AuthenticateUser`. -/
def authLenMsg (u : GoStr) : GoStr :=
  gs "User Id ('" ++ (u ++ (authLenMid ++ (gs (toString u.length) ++ gs ")")))

/-- `AuthenticateUser(userId)`.  `now` is the Unix timestamp (seconds) of
`time.Now()` at the call; `time.Now().Add(24 * time.Hour).Unix()` is then
`now + 24*60*60`. -/
def AuthenticateUser (pn : PushNotifications) (now : Int) (userId : GoStr) :
    Except GoStr SignedToken :=
  if userId.length = 0 then .error (gs "User Id cannot be empty")
  else if userId.length > maxUserIdLength then .error (authLenMsg userId)
  else .ok ⟨.HS256,
    ⟨userId, now + 24 * 60 * 60, gs "https://" ++ (pn.InstanceId ++ gs ".pushnotifications.pusher.com")⟩,
    pn.SecretKey⟩

/-- The publish URL as the specification words it:
`https://{instanceId}.pushnotifications.pusher.com/publish_api/v1/instances/{instanceId}/publishes`.
Spec-side definition, for comparison with `interestsPublishUrl`. -/
def specInterestsUrl (pn : PushNotifications) : GoStr :=
  gs "https://" ++ (pn.InstanceId ++ (gs ".pushnotifications.pusher.com/publish_api/v1/instances/" ++
    (pn.InstanceId ++ gs "/publishes")))

/-- The users publish URL as the specification words it: the same with
suffix `/users`.  Spec-side definition, for comparison with
`usersPublishUrl`. -/
def specUsersUrl (pn : PushNotifications) : GoStr :=
  specInterestsUrl pn ++ gs "/users"

/-- A user id entry that passes all three per-entry checks of
`PublishToUsers`. -/
def userEntryOk (u : GoStr) : Prop :=
  u ≠ [] ∧ u.length ≤ maxUserIdLength ∧ utf8Valid u = true

instance (u : GoStr) : Decidable (userEntryOk u) := by
  unfold userEntryOk; infer_instance

theorem startsWithB_nil (h : GoStr) : startsWithB h [] = true := by
  cases h <;> rfl

theorem startsWithB_self_append (n z : GoStr) : startsWithB (n ++ z) n = true := by
  induction n with
  | nil => exact startsWithB_nil z
  | cons a n ih => simp [startsWithB, ih]

theorem startsWithB_extend {h n : GoStr} (z : GoStr) (hp : startsWithB h n = true) :
    startsWithB (h ++ z) n = true := by
  induction n generalizing h with
  | nil => exact startsWithB_nil _
  | cons b bs ih =>
    cases h with
    | nil => simp [startsWithB] at hp
    | cons a as =>
      simp only [startsWithB, Bool.and_eq_true, beq_iff_eq] at hp
      simp [startsWithB, hp.1, ih hp.2]

theorem containsSub_of_startsWithB {h n : GoStr} (hp : startsWithB h n = true) :
    containsSub h n = true := by
  cases h with
  | nil => exact hp
  | cons a t => simp [containsSub, hp]

theorem containsSub_cons {t n : GoStr} (a : Nat) (hc : containsSub t n = true) :
    containsSub (a :: t) n = true := by
  simp [containsSub, hc]

theorem containsSub_append_left {h n : GoStr} (x : GoStr) (hc : containsSub h n = true) :
    containsSub (x ++ h) n = true := by
  induction x with
  | nil => exact hc
  | cons a x ih => exact containsSub_cons a ih

theorem containsSub_extend_right {h n : GoStr} (z : GoStr) (hc : containsSub h n = true) :
    containsSub (h ++ z) n = true := by
  induction h with
  | nil =>
    cases n with
    | nil => exact containsSub_of_startsWithB (startsWithB_nil z)
    | cons b bs => simp [containsSub, startsWithB] at hc
  | cons a t ih =>
    simp only [containsSub, Bool.or_eq_true] at hc
    rcases hc with hc | hc
    · exact containsSub_of_startsWithB (startsWithB_extend z hc)
    · exact containsSub_cons a (ih hc)

theorem containsSub_sandwich (x n z : GoStr) : containsSub (x ++ (n ++ z)) n = true :=
  containsSub_append_left x (containsSub_of_startsWithB (startsWithB_self_append n z))

theorem mapGet_mapSet_self (m : GoMap) (k : GoStr) (v : GoVal) :
    mapGet (mapSet m k v) k = some v := by
  induction m with
  | nil => simp [mapSet, mapGet]
  | cons p rest ih =>
    obtain ⟨k0, v0⟩ := p
    by_cases hk : k0 = k
    · simp [mapSet, mapGet, hk]
    · simp [mapSet, mapGet, hk, ih]

theorem mapGet_mapSet_other (m : GoMap) (k k' : GoStr) (v : GoVal) (hne : k' ≠ k) :
    mapGet (mapSet m k v) k' = mapGet m k' := by
  have hne' : ¬ k = k' := fun h => hne h.symm
  induction m with
  | nil =>
    simp only [mapSet, mapGet]
    rw [if_neg hne']
  | cons p rest ih =>
    obtain ⟨k0, v0⟩ := p
    simp only [mapSet]
    by_cases hk : k0 = k
    · subst hk
      simp only [if_pos rfl, mapGet]
      rw [if_neg hne', if_neg hne']
    · simp only [if_neg hk, mapGet]
      by_cases hk' : k0 = k'
      · simp [hk']
      · simp [hk', ih]

theorem jsonField_marshalFields {fl : GoMap} {jl : List (GoStr × Json)}
    (h : marshalFields fl = some jl) (k : GoStr) :
    jsonField jl k = (mapGet fl k).bind marshalVal := by
  induction fl generalizing jl with
  | nil =>
    simp only [marshalFields, Option.some.injEq] at h
    subst h
    simp [jsonField, mapGet]
  | cons p rest ih =>
    obtain ⟨k0, v0⟩ := p
    simp only [marshalFields] at h
    cases hv : marshalVal v0 with
    | none => rw [hv] at h; exact absurd h (by simp)
    | some j =>
      cases hr : marshalFields rest with
      | none => rw [hv, hr] at h; exact absurd h (by simp)
      | some js =>
        rw [hv, hr] at h
        simp only [Option.some.injEq] at h
        subst h
        by_cases hk : k0 = k
        · simp [jsonField, mapGet, hk, hv]
        · simp [jsonField, mapGet, hk, ih hr]

theorem checkUserIds_skip (pre rest : List GoStr) (i : Nat) :
    (∀ x ∈ pre, userEntryOk x) →
    checkUserIds i (pre ++ rest) = checkUserIds (i + pre.length) rest := by
  induction pre generalizing i with
  | nil => intro _; simp [checkUserIds]
  | cons x pre ih =>
    intro h
    obtain ⟨hx1, hx2, hx3⟩ := h x (List.mem_cons_self x pre)
    have hrest : ∀ y ∈ pre, userEntryOk y := fun y hy => h y (List.mem_cons_of_mem x hy)
    simp only [List.cons_append, checkUserIds, if_neg hx1, if_neg (Nat.not_lt.mpr hx2), hx3]
    rw [if_neg (by simp)]
    simp only [List.append_eq]
    rw [ih (i + 1) hrest]
    have hidx : i + 1 + pre.length = i + (x :: pre).length := by
      simp only [List.length_cons]
      omega
    rw [hidx]

theorem checkInterestList_none {l : List GoStr} (h : ∀ i ∈ l, checkInterest i = none) :
    checkInterestList l = none := by
  induction l with
  | nil => rfl
  | cons i rest ih =>
    simp only [checkInterestList, h i (List.mem_cons_self i rest)]
    exact ih fun j hj => h j (List.mem_cons_of_mem i hj)

theorem validateInterests_ne_nil {l : List GoStr} (h : validateInterests l = none) :
    l ≠ [] := by
  intro hl
  subst hl
  simp [validateInterests] at h

theorem validateUserIds_ne_nil {l : List GoStr} (h : validateUserIds l = none) :
    l ≠ [] := by
  intro hl
  subst hl
  simp [validateUserIds] at h

theorem sprintf_nopct_append (a : GoStr) (f : GoStr) (args : List GoStr)
    (h : ∀ b ∈ a, b ≠ 37) : sprintf (a ++ f) args = a ++ sprintf f args := by
  induction a with
  | nil => rfl
  | cons b a ih =>
    have hb := h b (List.mem_cons_self b a)
    have step : sprintf (b :: (a ++ f)) args = b :: sprintf (a ++ f) args := by
      rw [sprintf.eq_def]
      simp [hb]
    rw [List.cons_append, step, ih fun y hy => h y (List.mem_cons_of_mem b hy),
      List.cons_append]

theorem sprintf_nopct (f : GoStr) (args : List GoStr) (h : ∀ b ∈ f, b ≠ 37) :
    sprintf f args = f := by
  have h1 := sprintf_nopct_append f [] args h
  have h2 : sprintf ([] : GoStr) args = [] := rfl
  rw [h2] at h1
  simpa using h1

theorem sprintf_verb_s (tail : GoStr) (a : GoStr) (args : List GoStr) :
    sprintf (37 :: 115 :: tail) (a :: args) = a ++ sprintf tail args := by
  simp [sprintf]

/-- `baseEndpoint` as `New` computes it (for every instance id: the single
`%s` of `defaultBaseEndpointFormat` consumes the id verbatim). -/
theorem baseEndpoint_eval (id : GoStr) :
    sprintf defaultBaseEndpointFormat [id] =
      gs "https://" ++ (id ++ gs ".pushnotifications.pusher.com") := by
  have hsplit : defaultBaseEndpointFormat =
      gs "https://" ++ (37 :: 115 :: gs ".pushnotifications.pusher.com") := by decide
  rw [hsplit, sprintf_nopct_append _ _ _ (by decide), sprintf_verb_s,
    sprintf_nopct _ _ (by decide)]

/-- Test fixture: a client with instance id `"inst"` and key `"key"`. -/
def pnW : PushNotifications :=
  ⟨gs "inst", gs "key", sprintf defaultBaseEndpointFormat [gs "inst"]⟩

/-- Test fixture: a transport whose `Do` fails. -/
def tNet : Transport := fun _ _ => .doErr (gs "dial tcp: connection refused")

/-- Test fixture: a transport answering 200 with body `{}`. -/
def tEmptyOk : Transport := fun _ _ => .resp 200 (some (.obj []))

/-- Test fixture: a transport answering 200 with body
`{"publishId":"pub123"}`. -/
def tPub : Transport := fun _ _ => .resp 200 (some (.obj [(gs "publishId", .str (gs "pub123"))]))

/-- Test fixture: a user id of 165 bytes. -/
def u165 : GoStr := List.replicate 165 97

/-- Test fixture: an interest of 165 bytes whose last byte `!` is outside
the allowed class. -/
def iBad : GoStr := List.replicate 164 97 ++ [33]

/-- Message of an `Except`-style Go error (`[]` for a success). -/
def errOf {α : Type} : Except GoStr α → GoStr
  | .error e => e
  | .ok _ => []

/-- Whether a Go call returned a non-nil error. -/
def isErr {α : Type} : Except GoStr α → Bool
  | .error _ => true
  | .ok _ => false

/-- C3: every interest list with 1 to 10 entries, each entry non-empty, of
length at most 164 and containing only characters from
`[A-Za-z0-9_\-=@,.;]`, passes the interest validation of
`PublishToInterests` (no validation error is returned). -/
theorem valid_interest_lists_pass_validation (l : List GoStr)
    (h1 : 1 ≤ l.length) (h2 : l.length ≤ 10)
    (h3 : ∀ i ∈ l, i ≠ [] ∧ i.length ≤ 164 ∧ i.all allowedByte = true) :
    validateInterests l = none := by
  unfold validateInterests
  rw [if_neg (by omega), if_neg (by omega)]
  apply checkInterestList_none
  intro i hi
  obtain ⟨hne, hlen, hall⟩ := h3 i hi
  have hmatch : interestRegexMatches i = true := by
    cases i with
    | nil => exact absurd rfl hne
    | cons a as => simp [interestRegexMatches, hall]
  unfold checkInterest
  rw [if_neg (fun hz => hne (List.length_eq_zero.mp hz)),
    if_neg (by omega : ¬ i.length > 164), if_neg (by simp [hmatch])]

/-- Witness for C3 at the concrete list `["hello"]`. -/
theorem valid_interest_lists_pass_validation_w : validateInterests [gs "hello"] = none :=
  valid_interest_lists_pass_validation [gs "hello"] (by decide) (by decide) (by decide)

/-- C4: when interest validation fails — in particular for the empty list
(error "No interests were supplied") and for every list with 11 or more
entries (the too-many-interests error) — `PublishToInterests` returns that
error with the payload untouched and the transport never invoked. -/
theorem invalid_interests_fail_without_network (pn : PushNotifications) (m : GoMap)
    (t : Transport) (l l2 : List GoStr) (e : GoStr)
    (h : validateInterests l = some e) (hlong : 10 < l2.length) :
    PublishToInterests pn l m t = ⟨.error e, m, []⟩ ∧
    validateInterests [] = some (gs "No interests were supplied") ∧
    validateInterests l2 = some (tooManyInterestsMsg l2.length) := by
  refine ⟨?_, rfl, ?_⟩
  · simp [PublishToInterests, h]
  · unfold validateInterests
    rw [if_neg (by omega), if_pos (by omega)]

/-- Witness for C4 at the empty list and an 11-entry list. -/
theorem invalid_interests_fail_without_network_w :
    PublishToInterests pnW [] [] tNet = ⟨.error (gs "No interests were supplied"), [], []⟩ ∧
    validateInterests [] = some (gs "No interests were supplied") ∧
    validateInterests (List.replicate 11 (gs "a")) = some (tooManyInterestsMsg 11) := by
  have h := invalid_interests_fail_without_network pnW [] tNet []
    (List.replicate 11 (gs "a")) (gs "No interests were supplied") rfl (by decide)
  simpa using h

/-- C5: for every non-empty user id of at most 164 bytes,
`AuthenticateUser` returns the token signed with HMAC-SHA256 over the
instance secret key and exactly the claims `sub = userId`,
`exp = now + 24h`, `iss = "https://{instanceId}.pushnotifications.pusher.com"`. -/
theorem authenticate_user_builds_claims (pn : PushNotifications) (now : Int) (u : GoStr)
    (h1 : u ≠ []) (h2 : u.length ≤ maxUserIdLength) :
    AuthenticateUser pn now u = .ok ⟨.HS256,
      ⟨u, now + 24 * 60 * 60,
        gs "https://" ++ (pn.InstanceId ++ gs ".pushnotifications.pusher.com")⟩,
      pn.SecretKey⟩ := by
  unfold AuthenticateUser
  rw [if_neg (fun hz => h1 (List.length_eq_zero.mp hz)), if_neg (Nat.not_lt.mpr h2)]

/-- Witness for C5 at `AuthenticateUser("alice")`. -/
theorem authenticate_user_builds_claims_w :
    AuthenticateUser pnW 1700000000 (gs "alice") = .ok ⟨.HS256,
      ⟨gs "alice", 1700000000 + 24 * 60 * 60,
        gs "https://" ++ (gs "inst" ++ gs ".pushnotifications.pusher.com")⟩,
      gs "key"⟩ :=
  authenticate_user_builds_claims pnW 1700000000 (gs "alice") (by decide) (by decide)

/-- C6 (amended): `AuthenticateUser` fails on the empty user id with the
empty-user-id error and produces no token, and fails for every user id
longer than 164 bytes with a message stating the actual length and the
limit as the exclusive bound 165 ("expected fewer than 165 characters") —
not as the number 164. -/
theorem authenticate_user_rejections (pn : PushNotifications) (now : Int) (u : GoStr)
    (h : 164 < u.length) :
    AuthenticateUser pn now [] = .error (gs "User Id cannot be empty") ∧
    AuthenticateUser pn now u = .error (authLenMsg u) ∧
    containsSub (authLenMsg u) (gs "expected fewer than 165 characters") = true ∧
    containsSub (authLenMsg u) (gs (toString u.length)) = true := by
  refine ⟨rfl, ?_, ?_, ?_⟩
  · unfold AuthenticateUser
    rw [if_neg (by omega), if_pos (by simpa [maxUserIdLength] using h)]
  · refine containsSub_append_left _ (containsSub_append_left u ?_)
    exact containsSub_extend_right _ (by decide : containsSub authLenMid
      (gs "expected fewer than 165 characters") = true)
  · refine containsSub_append_left _ (containsSub_append_left u
      (containsSub_append_left authLenMid ?_))
    exact containsSub_of_startsWithB (startsWithB_self_append _ _)

/-- Witness for C6 at a 165-byte user id. -/
theorem authenticate_user_rejections_w :
    AuthenticateUser pnW 0 [] = .error (gs "User Id cannot be empty") ∧
    AuthenticateUser pnW 0 u165 = .error (authLenMsg u165) ∧
    containsSub (authLenMsg u165) (gs "expected fewer than 165 characters") = true ∧
    containsSub (authLenMsg u165) (gs (toString u165.length)) = true :=
  authenticate_user_rejections pnW 0 u165 (by decide)

/-- C6 counterexample: for the 165-byte user id, the error message never
contains the digits "164" (the claimed limit); it states "fewer than 165". -/
theorem authenticate_user_rejections_cex :
    isErr (AuthenticateUser pnW 0 u165) = true ∧
    containsSub (errOf (AuthenticateUser pnW 0 u165)) (gs "164") = false ∧
    containsSub (errOf (AuthenticateUser pnW 0 u165)) (gs "fewer than 165 characters, got 165") =
      true :=
  ⟨rfl, by decide, by decide⟩

/-- C10 (amended): for every interest of at most 164 bytes containing a
byte outside the allowed class, validation fails with the
forbidden-character error, whose message contains the offending interest
and the phrase "forbidden character".  (For longer interests the length
check fires first.) -/
theorem forbidden_char_interest_error (i : GoStr) (hlen : i.length ≤ 164)
    (b : Nat) (hb : b ∈ i) (hbad : allowedByte b = false) :
    checkInterest i = some (interestCharMsg i) ∧
    containsSub (interestCharMsg i) i = true ∧
    containsSub (interestCharMsg i) (gs "forbidden character") = true := by
  have hne : i ≠ [] := by
    intro hz
    subst hz
    simp at hb
  have hnm : interestRegexMatches i = false := by
    unfold interestRegexMatches
    have hall : i.all allowedByte = false := by
      rw [List.all_eq_false]
      exact ⟨b, hb, by simp [hbad]⟩
    simp [hall]
  refine ⟨?_, ?_, ?_⟩
  · unfold checkInterest
    rw [if_neg (fun hz => hne (List.length_eq_zero.mp hz)),
      if_neg (by omega : ¬ i.length > 164), if_pos hnm]
  · exact containsSub_sandwich _ _ _
  · exact containsSub_append_left _ (containsSub_append_left i (by decide))

/-- Witness for C10 at the interest `"foo!"`. -/
theorem forbidden_char_interest_error_w :
    checkInterest (gs "foo!") = some (interestCharMsg (gs "foo!")) ∧
    containsSub (interestCharMsg (gs "foo!")) (gs "foo!") = true ∧
    containsSub (interestCharMsg (gs "foo!")) (gs "forbidden character") = true :=
  forbidden_char_interest_error (gs "foo!") (by decide) 33 (by decide) (by decide)

/-- C10 counterexample: a 165-byte interest ending in `!` contains a
forbidden character, yet validation reports the length error, which names
neither the forbidden character nor the interest. -/
theorem forbidden_char_interest_error_cex :
    checkInterest iBad = some (interestLenMsg iBad) ∧
    containsSub (interestLenMsg iBad) (gs "forbidden") = false ∧
    containsSub (interestLenMsg iBad) iBad = false :=
  ⟨rfl, by decide, by decide⟩

/-- C7: user-id validation in `PublishToUsers` fails for every list of
more than 1000 entries with the count-exceeded error; when the scan
reaches an entry, an over-length entry (165 bytes or more) yields the
length error naming the offending value, an invalid-UTF-8 entry yields an
error naming its index, and an empty entry yields the emptiness error
(whose offending value, the empty string, every message trivially
contains). -/
theorem user_id_validation_errors :
    (∀ users : List GoStr, maxNumUserIds < users.length →
      validateUserIds users = some (tooManyUserIdsMsg users.length)) ∧
    (∀ pre u post, (∀ x ∈ pre, userEntryOk x) →
      (pre ++ u :: post).length ≤ maxNumUserIds → 164 < u.length →
      validateUserIds (pre ++ u :: post) = some (userLenMsg u) ∧
      containsSub (userLenMsg u) u = true) ∧
    (∀ pre u post, (∀ x ∈ pre, userEntryOk x) →
      (pre ++ u :: post).length ≤ maxNumUserIds → u ≠ [] → u.length ≤ 164 →
      utf8Valid u = false →
      validateUserIds (pre ++ u :: post) = some (userUtf8Msg pre.length) ∧
      containsSub (userUtf8Msg pre.length) (gs (toString pre.length)) = true) ∧
    (∀ pre post, (∀ x ∈ pre, userEntryOk x) →
      (pre ++ ([] : GoStr) :: post).length ≤ maxNumUserIds →
      validateUserIds (pre ++ ([] : GoStr) :: post) = some userEmptyMsg ∧
      containsSub userEmptyMsg [] = true) := by
  have hlen0 : ∀ (pre post : List GoStr) (u : GoStr),
      ¬ (pre ++ u :: post).length = 0 := by
    intro pre post u
    simp only [List.length_append, List.length_cons]
    omega
  refine ⟨?_, ?_, ?_, ?_⟩
  · intro users h
    unfold validateUserIds
    rw [if_neg (Nat.pos_iff_ne_zero.mp (Nat.lt_of_le_of_lt (Nat.zero_le _) h)), if_pos h]
  · intro pre u post hpre hcount hu
    have hne : u ≠ [] := by
      intro hz
      subst hz
      simp at hu
    constructor
    · unfold validateUserIds
      rw [if_neg (hlen0 pre post u), if_neg (Nat.not_lt.mpr hcount),
        checkUserIds_skip pre (u :: post) 0 hpre, Nat.zero_add]
      unfold checkUserIds
      rw [if_neg hne, if_pos (by simpa [maxUserIdLength] using hu)]
    · exact containsSub_sandwich _ _ _
  · intro pre u post hpre hcount hne hlen hutf
    constructor
    · unfold validateUserIds
      rw [if_neg (hlen0 pre post u), if_neg (Nat.not_lt.mpr hcount),
        checkUserIds_skip pre (u :: post) 0 hpre, Nat.zero_add]
      unfold checkUserIds
      rw [if_neg hne,
        if_neg (by simpa [maxUserIdLength] using Nat.not_lt.mpr hlen :
          ¬ u.length > maxUserIdLength),
        if_pos hutf]
    · exact containsSub_append_left _
        (containsSub_of_startsWithB (startsWithB_self_append _ _))
  · intro pre post hpre hcount
    constructor
    · unfold validateUserIds
      rw [if_neg (hlen0 pre post []), if_neg (Nat.not_lt.mpr hcount),
        checkUserIds_skip pre ([] :: post) 0 hpre, Nat.zero_add]
      unfold checkUserIds
      rw [if_pos rfl]
    · exact containsSub_of_startsWithB (startsWithB_nil _)

/-- Witness for C7: a 1001-entry list, a 165-byte id at index 1, an
invalid-UTF-8 id at index 1, and an empty id. -/
theorem user_id_validation_errors_w :
    validateUserIds (List.replicate 1001 [97]) = some (tooManyUserIdsMsg 1001) ∧
    validateUserIds [[97], u165] = some (userLenMsg u165) ∧
    containsSub (userLenMsg u165) u165 = true ∧
    validateUserIds [[97], [255]] = some (userUtf8Msg 1) ∧
    validateUserIds [[97], []] = some userEmptyMsg := by
  have h := user_id_validation_errors
  refine ⟨?_, ?_, ?_, ?_, ?_⟩
  · have h1 := h.1 (List.replicate 1001 [97]) (by decide)
    simpa using h1
  · have h2 := (h.2.1 [[97]] u165 [] (by decide) (by decide) (by decide)).1
    simpa using h2
  · exact (h.2.1 [[97]] u165 [] (by decide) (by decide) (by decide)).2
  · have h3 := (h.2.2.1 [[97]] [255] [] (by decide) (by decide) (by decide) (by decide)
      (by decide)).1
    simpa using h3
  · have h4 := (h.2.2.2 [[97]] [] (by decide) (by decide)).1
    simpa using h4

theorem marshalMap_obj {m : GoMap} {doc : Json} (h : marshalMap m = some doc) :
    ∃ jl, marshalFields m = some jl ∧ doc = .obj jl := by
  unfold marshalMap at h
  cases hf : marshalFields m with
  | none => rw [hf] at h; simp at h
  | some jl =>
    rw [hf] at h
    exact ⟨jl, rfl, (by simpa using h : Json.obj jl = doc).symm⟩

/-- C1: whenever `PublishToInterests` / `PublishToUsers` reaches the
transport (validation and serialization succeeded), the serialized body
carries the injected `interests` (resp. `users`) key bound to the
validated, non-empty list, and at every other key — in particular at the
other one of the two — exactly what the caller's payload already held:
the client injects exactly one of the two keys, never both, never empty,
overwriting a caller-supplied binding of the same name only. -/
theorem publish_injects_exactly_one_key (pn : PushNotifications)
    (l ul : List GoStr) (m mu : GoMap) (t tu : Transport) (doc docu : Json) (k ku : GoStr) :
    (validateInterests l = none →
      marshalMap (mapSet m keyInterests (.strList l)) = some doc →
      k ≠ keyInterests →
      l ≠ [] ∧
      jsonObjGet doc keyInterests = some (.arr (l.map Json.str)) ∧
      jsonObjGet doc k = (mapGet m k).bind marshalVal ∧
      (PublishToInterests pn l m t).calls = [(interestsPublishUrl pn, doc)]) ∧
    (validateUserIds ul = none →
      marshalMap (mapSet mu keyUsers (.strList ul)) = some docu →
      ku ≠ keyUsers →
      ul ≠ [] ∧
      jsonObjGet docu keyUsers = some (.arr (ul.map Json.str)) ∧
      jsonObjGet docu ku = (mapGet mu ku).bind marshalVal ∧
      (PublishToUsers pn ul mu tu).calls = [(usersPublishUrl pn, docu)]) := by
  constructor
  · intro hv hm hk
    obtain ⟨jl, hf, hdoc⟩ := marshalMap_obj hm
    subst hdoc
    refine ⟨validateInterests_ne_nil hv, ?_, ?_, ?_⟩
    · show jsonField jl keyInterests = _
      rw [jsonField_marshalFields hf, mapGet_mapSet_self]
      rfl
    · show jsonField jl k = _
      rw [jsonField_marshalFields hf, mapGet_mapSet_other m keyInterests k _ hk]
    · simp [PublishToInterests, hv, hm, publishToAPI]
  · intro hv hm hk
    obtain ⟨jl, hf, hdoc⟩ := marshalMap_obj hm
    subst hdoc
    refine ⟨validateUserIds_ne_nil hv, ?_, ?_, ?_⟩
    · show jsonField jl keyUsers = _
      rw [jsonField_marshalFields hf, mapGet_mapSet_self]
      rfl
    · show jsonField jl ku = _
      rw [jsonField_marshalFields hf, mapGet_mapSet_other mu keyUsers ku _ hk]
    · simp [PublishToUsers, hv, hm, publishToAPI]

/-- Witness fixture: an interests-call payload that already holds a
caller-supplied `users` key. -/
def mW : GoMap := [(keyUsers, .str (gs "x"))]

/-- Witness fixture: serialized body of `mW` after injecting
`interests = ["hi"]`. -/
def docW : Json := .obj [(keyUsers, .str (gs "x")), (keyInterests, .arr [.str (gs "hi")])]

/-- Witness fixture: a users-call payload that already holds a
caller-supplied `interests` key. -/
def mWU : GoMap := [(keyInterests, .str (gs "y"))]

/-- Witness fixture: serialized body of `mWU` after injecting
`users = ["u1"]`. -/
def docWU : Json := .obj [(keyInterests, .str (gs "y")), (keyUsers, .arr [.str (gs "u1")])]

/-- Witness for C1 on payloads that already carry the other key. -/
theorem publish_injects_exactly_one_key_w :
    ([gs "hi"] ≠ ([] : List GoStr) ∧
     jsonObjGet docW keyInterests = some (.arr [Json.str (gs "hi")]) ∧
     jsonObjGet docW keyUsers = (mapGet mW keyUsers).bind marshalVal ∧
     (PublishToInterests pnW [gs "hi"] mW tNet).calls = [(interestsPublishUrl pnW, docW)]) ∧
    ([gs "u1"] ≠ ([] : List GoStr) ∧
     jsonObjGet docWU keyUsers = some (.arr [Json.str (gs "u1")]) ∧
     jsonObjGet docWU keyInterests = (mapGet mWU keyInterests).bind marshalVal ∧
     (PublishToUsers pnW [gs "u1"] mWU tNet).calls = [(usersPublishUrl pnW, docWU)]) := by
  have h := publish_injects_exactly_one_key pnW [gs "hi"] [gs "u1"] mW mWU tNet tNet
    docW docWU keyUsers keyInterests
  exact ⟨h.1 rfl rfl (by decide), h.2 rfl rfl (by decide)⟩

/-- C2 (amended): validation failures are atomic — the caller's payload
map is untouched and no transport call is made; on the serialization,
network, decode and API error paths nothing is persisted either, but the
caller's payload map has already been mutated at the injected
`interests`/`users` key; every other key of the payload is unchanged on
every path. -/
theorem publish_error_paths_leave_only_injected_key (pn : PushNotifications)
    (l ul : List GoStr) (m : GoMap) (t : Transport) (k ku : GoStr) :
    (validateInterests l ≠ none →
      (PublishToInterests pn l m t).request = m ∧ (PublishToInterests pn l m t).calls = []) ∧
    (k ≠ keyInterests →
      mapGet (PublishToInterests pn l m t).request k = mapGet m k) ∧
    (validateUserIds ul ≠ none →
      (PublishToUsers pn ul m t).request = m ∧ (PublishToUsers pn ul m t).calls = []) ∧
    (ku ≠ keyUsers →
      mapGet (PublishToUsers pn ul m t).request ku = mapGet m ku) := by
  refine ⟨?_, ?_, ?_, ?_⟩
  · intro hv
    cases hve : validateInterests l with
    | none => exact absurd hve hv
    | some e => simp [PublishToInterests, hve]
  · intro hk
    cases hve : validateInterests l with
    | some e => simp [PublishToInterests, hve]
    | none =>
      cases hm : marshalMap (mapSet m keyInterests (.strList l)) with
      | none =>
        simp only [PublishToInterests, hve, hm]
        exact mapGet_mapSet_other m keyInterests k _ hk
      | some body =>
        simp only [PublishToInterests, hve, hm]
        exact mapGet_mapSet_other m keyInterests k _ hk
  · intro hv
    cases hve : validateUserIds ul with
    | none => exact absurd hve hv
    | some e => simp [PublishToUsers, hve]
  · intro hk
    cases hve : validateUserIds ul with
    | some e => simp [PublishToUsers, hve]
    | none =>
      cases hm : marshalMap (mapSet m keyUsers (.strList ul)) with
      | none =>
        simp only [PublishToUsers, hve, hm]
        exact mapGet_mapSet_other m keyUsers ku _ hk
      | some body =>
        simp only [PublishToUsers, hve, hm]
        exact mapGet_mapSet_other m keyUsers ku _ hk

/-- Witness for C2 on a one-entry payload. -/
theorem publish_error_paths_leave_only_injected_key_w :
    ((PublishToInterests pnW [] [(gs "apns", .num 1)] tNet).request = [(gs "apns", .num 1)] ∧
     (PublishToInterests pnW [] [(gs "apns", .num 1)] tNet).calls = []) ∧
    mapGet (PublishToInterests pnW [gs "hi"] [(gs "apns", .num 1)] tNet).request (gs "apns") =
      mapGet [(gs "apns", .num 1)] (gs "apns") ∧
    ((PublishToUsers pnW [] [(gs "apns", .num 1)] tNet).request = [(gs "apns", .num 1)] ∧
     (PublishToUsers pnW [] [(gs "apns", .num 1)] tNet).calls = []) ∧
    mapGet (PublishToUsers pnW [gs "u1"] [(gs "apns", .num 1)] tNet).request (gs "apns") =
      mapGet [(gs "apns", .num 1)] (gs "apns") :=
  ⟨(publish_error_paths_leave_only_injected_key pnW [] [] [(gs "apns", .num 1)] tNet
      (gs "apns") (gs "apns")).1 (by decide),
   (publish_error_paths_leave_only_injected_key pnW [gs "hi"] [] [(gs "apns", .num 1)] tNet
      (gs "apns") (gs "apns")).2.1 (by decide),
   (publish_error_paths_leave_only_injected_key pnW [] [] [(gs "apns", .num 1)] tNet
      (gs "apns") (gs "apns")).2.2.1 (by decide),
   (publish_error_paths_leave_only_injected_key pnW [] [gs "u1"] [(gs "apns", .num 1)] tNet
      (gs "apns") (gs "apns")).2.2.2 (by decide)⟩

/-- C2 counterexample: a publish that fails with a network error
nevertheless returns with the caller's payload map mutated — the injected
`interests` key is now present in the previously empty map. -/
theorem publish_error_paths_leave_only_injected_key_cex :
    isErr (PublishToInterests pnW [gs "hi"] [] tNet).result = true ∧
    mapGet (PublishToInterests pnW [gs "hi"] [] tNet).request keyInterests =
      some (.strList [gs "hi"]) ∧
    mapGet ([] : GoMap) keyInterests = none :=
  ⟨rfl, rfl, rfl⟩

/-- C9 (amended): for every transport response with status 200 whose JSON
body has a `publishId` string field, the publish routine succeeds and
returns exactly that value — which the client does not re-validate, so the
identifier returned on success is whatever the service sent, empty
included. -/
theorem ok_publish_returns_body_publish_id (url : GoStr) (body : Json)
    (t : Transport) (fields : List (GoStr × Json)) (s : GoStr)
    (hresp : t url body = .resp 200 (some (.obj fields)))
    (hfield : jsonFieldLast fields (gs "publishId") = some (.str s)) :
    publishToAPI url body t = (.ok s, [(url, body)]) := by
  have hun : unmarshalPublishResponse (some (.obj fields)) = some ⟨s⟩ := by
    simp [unmarshalPublishResponse, decodeStrField, hfield]
  simp [publishToAPI, interpretResponse, hresp, hun]

/-- Witness for C9 at a 200 response carrying `publishId = "pub123"`. -/
theorem ok_publish_returns_body_publish_id_w :
    publishToAPI (gs "u") (.obj []) tPub = (.ok (gs "pub123"), [(gs "u", .obj [])]) :=
  ok_publish_returns_body_publish_id (gs "u") (.obj []) tPub
    [(gs "publishId", .str (gs "pub123"))] (gs "pub123") rfl rfl

/-- C9 counterexample: a 200 response with body `{}` makes the whole
publish call return without error, yet the returned publish identifier is
the empty string — not a non-empty one as claimed. -/
theorem ok_publish_returns_body_publish_id_cex :
    (PublishToInterests pnW [gs "hi"] [] tEmptyOk).result = .ok [] ∧
    ([] : GoStr).length = 0 :=
  ⟨rfl, rfl⟩

/-- The client `New("x%s", "key")` returns: an accepted instance id that
contains a `%` Sprintf verb. -/
def pnPct : PushNotifications :=
  ⟨gs "x%s", gs "key", sprintf defaultBaseEndpointFormat [gs "x%s"]⟩

/-- C8: `PublishToUsers` always builds the URL the spec states, and so
does `PublishToInterests` for every instance id free of `%` — but
`PublishToInterests` concatenates `baseEndpoint` (which embeds the
instance id) into the `Sprintf` format string, so for the accepted
instance id `"x%s"` it builds
`https://xx%s...instances/%!s(MISSING)/publishes` instead of the
specified URL. -/
theorem publish_url_construction :
    New (gs "x%s") (gs "key") = .ok pnPct ∧
    interestsPublishUrl pnPct =
      gs "https://xx%s.pushnotifications.pusher.com/publish_api/v1/instances/%!s(MISSING)/publishes" ∧
    interestsPublishUrl pnPct ≠ specInterestsUrl pnPct ∧
    usersPublishUrl pnPct = specUsersUrl pnPct ∧
    (∀ (id key : GoStr) (pn : PushNotifications), New id key = .ok pn →
      (∀ b ∈ id, b ≠ 37) →
      interestsPublishUrl pn = specInterestsUrl pn ∧ usersPublishUrl pn = specUsersUrl pn) := by
  refine ⟨rfl, by decide, by decide, by decide, ?_⟩
  intro id key pn hnew hid
  unfold New at hnew
  by_cases h1 : id = []
  · rw [if_pos h1] at hnew
    exact absurd hnew (by simp)
  · by_cases h2 : key = []
    · rw [if_neg h1, if_pos h2] at hnew
      exact absurd hnew (by simp)
    · rw [if_neg h1, if_neg h2] at hnew
      injection hnew with h3
      subst h3
      have hA : ∀ b ∈ gs "https://", b ≠ 37 := by decide
      have hB : ∀ b ∈ gs ".pushnotifications.pusher.com", b ≠ 37 := by decide
      have hno : ∀ b ∈ gs "https://" ++ (id ++ gs ".pushnotifications.pusher.com"), b ≠ 37 := by
        intro b hb
        rcases List.mem_append.mp hb with hb1 | hb1
        · exact hA b hb1
        · rcases List.mem_append.mp hb1 with hb2 | hb2
          · exact hid b hb2
          · exact hB b hb2
      have hC : gs "/publish_api/v1/instances/%s/publishes" =
          gs "/publish_api/v1/instances/" ++ (37 :: 115 :: gs "/publishes") := by decide
      have hsplitSpec : gs ".pushnotifications.pusher.com/publish_api/v1/instances/" =
          gs ".pushnotifications.pusher.com" ++ gs "/publish_api/v1/instances/" := by decide
      have hsplitUsers : gs "%s/publish_api/v1/instances/%s/publishes/users" =
          37 :: 115 :: (gs "/publish_api/v1/instances/" ++
            (37 :: 115 :: gs "/publishes/users")) := by decide
      have hsplitPub : gs "/publishes/users" = gs "/publishes" ++ gs "/users" := by decide
      constructor
      · simp only [interestsPublishUrl, specInterestsUrl, baseEndpoint_eval]
        rw [hC, sprintf_nopct_append _ _ _ hno,
          sprintf_nopct_append _ _ _ (by decide : ∀ b ∈ gs "/publish_api/v1/instances/", b ≠ 37),
          sprintf_verb_s, sprintf_nopct _ _ (by decide), hsplitSpec]
        simp [List.append_assoc]
      · simp only [usersPublishUrl, specUsersUrl, specInterestsUrl, baseEndpoint_eval]
        rw [hsplitUsers, sprintf_verb_s,
          sprintf_nopct_append _ _ _ (by decide : ∀ b ∈ gs "/publish_api/v1/instances/", b ≠ 37),
          sprintf_verb_s, sprintf_nopct _ _ (by decide), hsplitSpec, hsplitPub]
        simp [List.append_assoc]

/-- Witness for C8's universally quantified part at the `%`-free instance
id `"inst"`. -/
theorem publish_url_construction_w :
    interestsPublishUrl pnW = specInterestsUrl pnW ∧
    usersPublishUrl pnW = specUsersUrl pnW :=
  publish_url_construction.2.2.2.2 (gs "inst") (gs "key") pnW rfl (by decide)

end PushGo
